import Mathlib

set_option autoImplicit false

/-!
Shallow embedding of the vulnhuntr analysis orchestration engine:
the token-bucket rate limiter (`simple_rate_limiter.py`), the resilient
dispatcher (`enhanced_llm.py`), the per-category vulnerability analysis
loop (`__main__.py`, function `run`), and the session state store
(`simple_state.py`).  Python floats holding seconds and token counts are
modelled as exact rationals; the wall clock is passed explicitly as a
`now` argument; fallible operations return `Option`.
-/

namespace Vulnhuntr

/-! ## Rate limiter (`simple_rate_limiter.py`, class `SimpleRateLimiter`) -/

/-- State of `SimpleRateLimiter`: configured capacity in requests per
minute, the fractional token count, and the last-refill timestamp. -/
structure SimpleRateLimiter where
  requests_per_minute : Nat
  tokens : Rat
  last_refill : Rat
deriving DecidableEq

/-- `SimpleRateLimiter.__init__`: the bucket starts full
(`self.tokens = float(requests_per_minute)`) with `last_refill = time.time()`,
modelled by the explicit construction time `now`. -/
def SimpleRateLimiter.init (requests_per_minute : Nat) (now : Rat) : SimpleRateLimiter :=
  { requests_per_minute := requests_per_minute
    tokens := (requests_per_minute : Rat)
    last_refill := now }

/-- `SimpleRateLimiter.can_proceed`, with `time.time()` passed in as `now`:
refill `elapsed * (requests_per_minute / 60.0)` tokens capped at capacity,
then consume one token if at least one is available.  Returns the decision
together with the updated limiter state. -/
def SimpleRateLimiter.can_proceed (s : SimpleRateLimiter) (now : Rat) :
    Bool × SimpleRateLimiter :=
  let elapsed := now - s.last_refill
  let tokens_to_add := elapsed * ((s.requests_per_minute : Rat) / 60)
  let tokens := min ((s.requests_per_minute : Rat)) (s.tokens + tokens_to_add)
  if 1 ≤ tokens then
    (true, { s with tokens := tokens - 1, last_refill := now })
  else
    (false, { s with tokens := tokens, last_refill := now })

/-- `SimpleRateLimiter.wait_time`: `0` when a token is available, otherwise
`(1 - tokens) / (requests_per_minute / 60.0)`.  The Python division raises
`ZeroDivisionError` when `requests_per_minute` is `0`; that failure is
modelled as `none`. -/
def SimpleRateLimiter.wait_time (s : SimpleRateLimiter) : Option Rat :=
  if 1 ≤ s.tokens then some 0
  else if ((s.requests_per_minute : Rat) / 60) = 0 then none
  else some ((1 - s.tokens) / ((s.requests_per_minute : Rat) / 60))

/-- Iterate `can_proceed` `n` times at the fixed instant `now`, keeping only
the limiter state. -/
def can_proceed_iter (s : SimpleRateLimiter) (now : Rat) : Nat → SimpleRateLimiter
  | 0 => s
  | n + 1 => ((can_proceed_iter s now n).can_proceed now).2

/-- Run `can_proceed` once per entry of `nows`, collecting the list of
decisions and the final limiter state. -/
def can_proceed_run (s : SimpleRateLimiter) : List Rat → List Bool × SimpleRateLimiter
  | [] => ([], s)
  | now :: rest =>
    let r := s.can_proceed now
    let r2 := can_proceed_run r.2 rest
    (r.1 :: r2.1, r2.2)

lemma can_proceed_iter_init (C : Nat) (t0 : Rat) :
    ∀ k : Nat, k ≤ C →
      can_proceed_iter (SimpleRateLimiter.init C t0) t0 k =
        { requests_per_minute := C, tokens := (C : Rat) - (k : Rat), last_refill := t0 } := by
  intro k
  induction k with
  | zero =>
    intro _
    simp [can_proceed_iter, SimpleRateLimiter.init]
  | succ k ih =>
    intro hk
    have hk' : k ≤ C := Nat.le_of_succ_le hk
    have hk1 : (k : Rat) + 1 ≤ (C : Rat) := by
      exact_mod_cast hk
    rw [can_proceed_iter, ih hk']
    unfold SimpleRateLimiter.can_proceed
    have helapsed : t0 - t0 = 0 := by ring
    have hmin : min ((C : Rat)) ((C : Rat) - (k : Rat) + (t0 - t0) * ((C : Rat) / 60))
        = (C : Rat) - (k : Rat) := by
      have h0 : (C : Rat) - (k : Rat) + (t0 - t0) * ((C : Rat) / 60)
          = (C : Rat) - (k : Rat) := by ring
      rw [h0]
      have hle : (C : Rat) - (k : Rat) ≤ (C : Rat) := by
        have : (0 : Rat) ≤ (k : Rat) := by positivity
        linarith
      exact min_eq_right hle
    simp only [hmin]
    rw [if_pos (by linarith)]
    push_cast
    ring_nf

lemma can_proceed_iter_init_full (C : Nat) (t0 : Rat) (hC : 1 ≤ C) :
    can_proceed_iter (SimpleRateLimiter.init C t0) t0 (C + 1) =
      { requests_per_minute := C, tokens := 0, last_refill := t0 } := by
  rw [can_proceed_iter, can_proceed_iter_init C t0 C le_rfl]
  unfold SimpleRateLimiter.can_proceed
  have h0 : (C : Rat) - (C : Rat) + (t0 - t0) * ((C : Rat) / 60) = 0 := by ring
  have hmin : min ((C : Rat)) ((C : Rat) - (C : Rat) + (t0 - t0) * ((C : Rat) / 60)) = 0 := by
    rw [h0]
    have : (0 : Rat) ≤ (C : Rat) := by positivity
    exact min_eq_right this
  simp only [hmin]
  rw [if_neg (by norm_num)]

/-- Claim C5: for a fresh limiter of capacity `C ≥ 1` with no time passing,
the first `C` calls to `can_proceed` succeed, the `(C+1)`-th is denied,
`wait_time` then returns a value in `(0, 60/C]`, and after that much time
elapses the next call succeeds. -/
theorem rate_limiter_bucket_spec (C : Nat) (t0 : Rat) (hC : 1 ≤ C) :
    (∀ k, k < C →
      (((can_proceed_iter (SimpleRateLimiter.init C t0) t0 k).can_proceed t0)).1 = true) ∧
    (((can_proceed_iter (SimpleRateLimiter.init C t0) t0 C).can_proceed t0)).1 = false ∧
    (∃ w, (can_proceed_iter (SimpleRateLimiter.init C t0) t0 (C + 1)).wait_time = some w ∧
      0 < w ∧ w ≤ 60 / (C : Rat)) ∧
    (((can_proceed_iter (SimpleRateLimiter.init C t0) t0 (C + 1)).can_proceed
        (t0 + 60 / (C : Rat)))).1 = true := by
  have hCpos : (0 : Rat) < (C : Rat) := by exact_mod_cast hC
  refine ⟨?_, ?_, ?_, ?_⟩
  · intro k hk
    rw [can_proceed_iter_init C t0 k (Nat.le_of_lt hk)]
    unfold SimpleRateLimiter.can_proceed
    have hk1 : (k : Rat) + 1 ≤ (C : Rat) := by exact_mod_cast hk
    have hle : (C : Rat) - (k : Rat) ≤ (C : Rat) := by
      have : (0 : Rat) ≤ (k : Rat) := by positivity
      linarith
    have hmin : min ((C : Rat)) ((C : Rat) - (k : Rat) + (t0 - t0) * ((C : Rat) / 60))
        = (C : Rat) - (k : Rat) := by
      have h0 : (C : Rat) - (k : Rat) + (t0 - t0) * ((C : Rat) / 60) = (C : Rat) - (k : Rat) := by
        ring
      rw [h0]
      exact min_eq_right hle
    simp only [hmin]
    rw [if_pos (by linarith)]
  · rw [can_proceed_iter_init C t0 C le_rfl]
    unfold SimpleRateLimiter.can_proceed
    have h0 : (C : Rat) - (C : Rat) + (t0 - t0) * ((C : Rat) / 60) = 0 := by ring
    have hmin : min ((C : Rat)) ((C : Rat) - (C : Rat) + (t0 - t0) * ((C : Rat) / 60)) = 0 := by
      rw [h0]
      have : (0 : Rat) ≤ (C : Rat) := by positivity
      exact min_eq_right this
    simp only [hmin]
    rw [if_neg (by norm_num)]
  · refine ⟨60 / (C : Rat), ?_, by positivity, le_rfl⟩
    rw [can_proceed_iter_init_full C t0 hC]
    unfold SimpleRateLimiter.wait_time
    have hdiv : ((C : Rat) / 60) ≠ 0 := by positivity
    rw [if_neg (by norm_num), if_neg hdiv]
    congr 1
    field_simp
  · rw [can_proceed_iter_init_full C t0 hC]
    unfold SimpleRateLimiter.can_proceed
    have helapsed : t0 + 60 / (C : Rat) - t0 = 60 / (C : Rat) := by ring
    have hone : (0 : Rat) + (t0 + 60 / (C : Rat) - t0) * ((C : Rat) / 60) = 1 := by
      rw [helapsed]
      field_simp
    have hC1 : (1 : Rat) ≤ (C : Rat) := by exact_mod_cast hC
    have hmin : min ((C : Rat)) ((0 : Rat) + (t0 + 60 / (C : Rat) - t0) * ((C : Rat) / 60))
        = 1 := by
      rw [hone]
      exact min_eq_right hC1
    simp only [hmin]
    rw [if_pos le_rfl]

/-- Witness for C5 at capacity `2`, construction time `0`. -/
theorem rate_limiter_bucket_spec_witness :
    (1 ≤ 2) ∧
    (((can_proceed_iter (SimpleRateLimiter.init 2 0) 0 2).can_proceed 0)).1 = false :=
  ⟨by norm_num, (rate_limiter_bucket_spec 2 0 (by norm_num)).2.1⟩

lemma can_proceed_zero_capacity (s : SimpleRateLimiter) (now : Rat)
    (hrpm : s.requests_per_minute = 0) (htok : s.tokens = 0) :
    s.can_proceed now = (false, { s with tokens := 0, last_refill := now }) := by
  unfold SimpleRateLimiter.can_proceed
  rw [hrpm, htok]
  norm_num

lemma can_proceed_run_zero_capacity (nows : List Rat) :
    ∀ s : SimpleRateLimiter, s.requests_per_minute = 0 → s.tokens = 0 →
      ((can_proceed_run s nows).1.all (fun b => b = false)) = true ∧
      (can_proceed_run s nows).2.requests_per_minute = 0 ∧
      (can_proceed_run s nows).2.tokens = 0 := by
  induction nows with
  | nil =>
    intro s h1 h2
    exact ⟨rfl, h1, h2⟩
  | cons now rest ih =>
    intro s h1 h2
    have hstep := can_proceed_zero_capacity s now h1 h2
    have ih' := ih { s with tokens := 0, last_refill := now } h1 rfl
    simp only [can_proceed_run, hstep]
    refine ⟨?_, ih'.2.1, ih'.2.2⟩
    simp only [List.all_cons, Bool.and_eq_true, decide_eq_true_eq]
    exact ⟨by simp, ih'.1⟩

/-- Claim C10: for any limiter state with capacity at least one request per
minute, `wait_time` always succeeds with a nonnegative delay; for a limiter
constructed with capacity `0`, every `can_proceed` call is denied and a
subsequent `wait_time` call hits the unguarded division by zero
(modelled as `none`). -/
theorem wait_time_total_and_zero_capacity_div :
    (∀ s : SimpleRateLimiter, 1 ≤ s.requests_per_minute →
      ∃ w, s.wait_time = some w ∧ 0 ≤ w) ∧
    (∀ (t0 : Rat) (nows : List Rat),
      ((can_proceed_run (SimpleRateLimiter.init 0 t0) nows).1.all
        (fun b => b = false)) = true ∧
      (can_proceed_run (SimpleRateLimiter.init 0 t0) nows).2.wait_time = none) := by
  constructor
  · intro s hs
    have hCpos : (0 : Rat) < (s.requests_per_minute : Rat) := by exact_mod_cast hs
    unfold SimpleRateLimiter.wait_time
    by_cases htok : 1 ≤ s.tokens
    · exact ⟨0, by rw [if_pos htok], le_rfl⟩
    · have hdiv : ((s.requests_per_minute : Rat) / 60) ≠ 0 := by positivity
      refine ⟨(1 - s.tokens) / ((s.requests_per_minute : Rat) / 60),
        by rw [if_neg htok, if_neg hdiv], ?_⟩
      have hnum : (0 : Rat) ≤ 1 - s.tokens := by linarith [lt_of_not_le htok]
      positivity
  · intro t0 nows
    have h := can_proceed_run_zero_capacity nows (SimpleRateLimiter.init 0 t0) rfl
      (by simp [SimpleRateLimiter.init])
    refine ⟨h.1, ?_⟩
    unfold SimpleRateLimiter.wait_time
    rw [if_neg (by rw [h.2.2]; norm_num), if_pos (by rw [h.2.1]; norm_num)]

/-- Witness for C10: a fresh capacity-1 limiter has a defined nonnegative
wait time, and a fresh capacity-0 limiter denies two immediate calls and
then fails in `wait_time`. -/
theorem wait_time_total_and_zero_capacity_div_witness :
    (∃ w, (SimpleRateLimiter.init 1 0).wait_time = some w ∧ 0 ≤ w) ∧
    ((can_proceed_run (SimpleRateLimiter.init 0 0) [0, 0]).1.all
      (fun b => b = false)) = true :=
  ⟨(wait_time_total_and_zero_capacity_div.1 (SimpleRateLimiter.init 1 0) (by decide)),
   (wait_time_total_and_zero_capacity_div.2 0 [0, 0]).1⟩

/-! ## Session state store (`simple_state.py`, class `SimpleStateManager`)

Python `dict`s are modelled as insertion-ordered association lists with
update-in-place semantics; the md5 fingerprint of `_calculate_file_hash`
is modelled injectively by the data it hashes (path plus optional
modification time); JSON persistence is not modelled (the in-memory state
is the state that `_save_state`/`_load_state` round-trip). -/

/-- Lookup in a Python-dict model: first (and only) binding of the key. -/
def dict_get {α β : Type} [DecidableEq α] (m : List (α × β)) (k : α) : Option β :=
  match m with
  | [] => none
  | kv :: rest => if kv.1 = k then some kv.2 else dict_get rest k

/-- Assignment `m[k] = v` in a Python-dict model: replace the binding in
place when the key exists, otherwise append it. -/
def dict_set {α β : Type} [DecidableEq α] (m : List (α × β)) (k : α) (v : β) :
    List (α × β) :=
  match m with
  | [] => [(k, v)]
  | kv :: rest => if kv.1 = k then (k, v) :: rest else kv :: dict_set rest k v

/-- Membership test `k in m` in a Python-dict model. -/
def dict_has {α β : Type} [DecidableEq α] (m : List (α × β)) (k : α) : Bool :=
  (dict_get m k).isSome

lemma dict_get_set_self {α β : Type} [DecidableEq α] (m : List (α × β)) (k : α) (v : β) :
    dict_get (dict_set m k v) k = some v := by
  induction m with
  | nil => simp [dict_set, dict_get]
  | cons kv rest ih =>
    by_cases h : kv.1 = k
    · simp [dict_set, dict_get, h]
    · simp [dict_set, dict_get, h, ih]

/-- Result of `_calculate_file_hash`: the md5 of `f"{path}_{mtime}"` for an
existing file, or of the bare path otherwise, modelled injectively by the
hashed data. -/
inductive Fingerprint where
  | withMtime (file_path : String) (mtime : Rat)
  | pathOnly (file_path : String)
deriving DecidableEq

/-- `SimpleStateManager._calculate_file_hash`, with the filesystem `stat`
observation passed in: `some mtime` when the file exists, `none` otherwise. -/
def calculate_file_hash (file_path : String) (mtime : Option Rat) : Fingerprint :=
  match mtime with
  | some t => .withMtime file_path t
  | none => .pathOnly file_path

/-- An entry of the `completed_files` table: `mark_file_completed` stores
`{file_path, result, completed_at, session_id}`, `mark_file_failed` stores
`{file_path, error, failed_at, session_id, status: "failed"}`. -/
inductive FileRecord where
  | completed (file_path : String) (result : Nat) (completed_at : Rat) (session_id : String)
  | failed (file_path : String) (error : String) (failed_at : Rat) (session_id : String)
deriving DecidableEq

/-- A `sessions` table entry as written by `start_session` and updated by
the mark operations (`completed_count` is the session's `completed_files`
progress counter). -/
structure Session where
  repo_path : String
  started_at : Rat
  total_files : Nat
  completed_count : Nat
  files : List String
  status : String
  last_updated : Rat
deriving DecidableEq

/-- The in-memory `self.state` of `SimpleStateManager`. -/
structure ManagerState where
  sessions : List (String × Session)
  completed_files : List (Fingerprint × FileRecord)
deriving DecidableEq

/-- The fresh state produced by `_load_state` when no state file exists. -/
def empty_state : ManagerState := { sessions := [], completed_files := [] }

/-- `SimpleStateManager.start_session` (the md5-generated session id is
passed in, and `time.time()` is passed as `now`). -/
def start_session (st : ManagerState) (session_id repo_path : String)
    (files : List String) (now : Rat) : ManagerState :=
  { st with
    sessions := dict_set st.sessions session_id
      { repo_path := repo_path, started_at := now, total_files := files.length,
        completed_count := 0, files := files, status := "running",
        last_updated := now } }

/-- The shared "update session progress" block of `mark_file_completed`
and `mark_file_failed`. -/
def bump_session (sessions : List (String × Session)) (session_id : String)
    (now : Rat) : List (String × Session) :=
  match dict_get sessions session_id with
  | some sess => dict_set sessions session_id
      { sess with completed_count := sess.completed_count + 1, last_updated := now }
  | none => sessions

/-- `SimpleStateManager.mark_file_completed`: store the result record under
the file's current fingerprint (overwriting any existing binding) and bump
the session's progress counter. -/
def mark_file_completed (st : ManagerState) (session_id file_path : String)
    (mtime : Option Rat) (result : Nat) (now : Rat) : ManagerState :=
  let file_hash := calculate_file_hash file_path mtime
  { sessions := bump_session st.sessions session_id now,
    completed_files := dict_set st.completed_files file_hash
      (.completed file_path result now session_id) }

/-- `SimpleStateManager.mark_file_failed`: store the failure record under
the file's current fingerprint (overwriting any existing binding) and bump
the session's progress counter. -/
def mark_file_failed (st : ManagerState) (session_id file_path : String)
    (mtime : Option Rat) (error : String) (now : Rat) : ManagerState :=
  let file_hash := calculate_file_hash file_path mtime
  { sessions := bump_session st.sessions session_id now,
    completed_files := dict_set st.completed_files file_hash
      (.failed file_path error now session_id) }

/-- `SimpleStateManager.get_cached_result`: the stored result when the
record under the current fingerprint exists, carries a `result` field and
is not marked failed; `None` otherwise. -/
def get_cached_result (st : ManagerState) (file_path : String)
    (mtime : Option Rat) : Option Nat :=
  match dict_get st.completed_files (calculate_file_hash file_path mtime) with
  | some (.completed _ r _ _) => some r
  | _ => none

/-- `SimpleStateManager.get_pending_files`: the session's file list minus
files whose current fingerprint appears in the global `completed_files`
table (the current mtime of each file is supplied by `fs`). -/
def get_pending_files (st : ManagerState) (session_id : String)
    (fs : String → Option Rat) : List String :=
  match dict_get st.sessions session_id with
  | none => []
  | some sess =>
    sess.files.filter (fun f => !(dict_has st.completed_files (calculate_file_hash f (fs f))))

lemma calculate_file_hash_path_ne (p q : String) (m m2 : Option Rat) (h : p ≠ q) :
    calculate_file_hash p m ≠ calculate_file_hash q m2 := by
  cases m <;> cases m2 <;> simp [calculate_file_hash, h]

/-- State after marking `a.py` (fingerprinted with mtime `1`) completed
with result `7` in session `s1`. -/
def c2_first : ManagerState := mark_file_completed empty_state "s1" "a.py" (some 1) 7 10

/-- State after a later `mark_file_failed` for the same unchanged
fingerprint of `a.py`. -/
def c2_second : ManagerState := mark_file_failed c2_first "s2" "a.py" (some 1) "boom" 11

/-- Counterexample to claim C2: the cached completed record for `a.py`
(unchanged fingerprint) is overwritten by a later `mark_file_failed` call —
the record is not immutable once written. -/
theorem completed_record_overwritten :
    dict_get c2_first.completed_files (calculate_file_hash "a.py" (some 1))
      = some (FileRecord.completed "a.py" 7 10 "s1") ∧
    dict_get c2_second.completed_files (calculate_file_hash "a.py" (some 1))
      = some (FileRecord.failed "a.py" "boom" 11 "s2") := by
  constructor <;> rfl

/-- Claim C2 as amended: the completed-files table is last-write-wins — a
`mark_file_completed` or `mark_file_failed` call always leaves its own
record under the file's fingerprint, replacing any existing one. -/
theorem mark_file_last_write_wins :
    ∀ (st : ManagerState) (session_id file_path : String) (mtime : Option Rat)
      (result : Nat) (error : String) (now now2 : Rat),
      dict_get (mark_file_completed st session_id file_path mtime result now).completed_files
          (calculate_file_hash file_path mtime)
        = some (FileRecord.completed file_path result now session_id) ∧
      dict_get (mark_file_failed st session_id file_path mtime error now2).completed_files
          (calculate_file_hash file_path mtime)
        = some (FileRecord.failed file_path error now2 session_id) := by
  intro st session_id file_path mtime result error now now2
  exact ⟨dict_get_set_self st.completed_files _ _, dict_get_set_self st.completed_files _ _⟩

/-- Claim C8: `get_cached_result` returns a result exactly when the record
under the file's current fingerprint is a success record holding it; a
failure record yields `None`; and a changed modification time changes the
fingerprint (so the old record is not found). -/
theorem get_cached_result_spec :
    (∀ (st : ManagerState) (file_path : String) (mtime : Option Rat) (r : Nat),
      get_cached_result st file_path mtime = some r ↔
        ∃ fp t sid, dict_get st.completed_files (calculate_file_hash file_path mtime)
          = some (FileRecord.completed fp r t sid)) ∧
    (∀ (st : ManagerState) (file_path : String) (mtime : Option Rat)
        (fp err : String) (t : Rat) (sid : String),
      dict_get st.completed_files (calculate_file_hash file_path mtime)
          = some (FileRecord.failed fp err t sid) →
      get_cached_result st file_path mtime = none) ∧
    (∀ (p : String) (t t2 : Rat), t ≠ t2 →
      calculate_file_hash p (some t) ≠ calculate_file_hash p (some t2)) := by
  refine ⟨?_, ?_, ?_⟩
  · intro st file_path mtime r
    unfold get_cached_result
    cases hres : dict_get st.completed_files (calculate_file_hash file_path mtime) with
    | none => simp
    | some rec =>
      cases rec with
      | completed fp r2 t sid =>
        simp only [Option.some.injEq]
        constructor
        · intro h
          exact ⟨fp, t, sid, by rw [h]⟩
        · rintro ⟨fp2, t2, sid2, h⟩
          rw [FileRecord.completed.injEq] at h
          exact h.2.1
      | failed fp err t sid =>
        simp only [reduceCtorEq, false_iff, not_exists]
        intro fp2 t2 sid2
        simp
  · intro st file_path mtime fp err t sid h
    unfold get_cached_result
    rw [h]
  · intro p t t2 h
    simp [calculate_file_hash, h]

/-- A state whose only record for `a.py` is a failure record. -/
def c8_state : ManagerState :=
  { sessions := [],
    completed_files := [(calculate_file_hash "a.py" (some 1),
      FileRecord.failed "a.py" "boom" 2 "s1")] }

/-- Witness for C8: a changed mtime changes the fingerprint, and a failure
record under the current fingerprint yields `None`. -/
theorem get_cached_result_spec_witness :
    (calculate_file_hash "a.py" (some 0) ≠ calculate_file_hash "a.py" (some 1)) ∧
    get_cached_result c8_state "a.py" (some 1) = none :=
  ⟨get_cached_result_spec.2.2 "a.py" 0 1 (by norm_num),
   get_cached_result_spec.2.1 c8_state "a.py" (some 1) "a.py" "boom" 2 "s1" rfl⟩

/-- Claim C9: pending files are the session's target list in original order
minus exactly the files whose current fingerprint appears in the global
completed-files table; and the `[a, b, c]` scenario — after marking `a.py`
completed with result `R`, the pending list is `[b.py, c.py]` and the
cached result for `a.py` is `R`. -/
theorem get_pending_files_spec :
    (∀ (st : ManagerState) (session_id : String) (fs : String → Option Rat) (sess : Session),
      dict_get st.sessions session_id = some sess →
      (get_pending_files st session_id fs).Sublist sess.files ∧
      (∀ f, f ∈ get_pending_files st session_id fs ↔
        f ∈ sess.files ∧
          dict_has st.completed_files (calculate_file_hash f (fs f)) = false)) ∧
    (∀ (session_id repo_path : String) (fs : String → Option Rat) (R : Nat) (t0 t1 : Rat),
      get_pending_files
        (mark_file_completed
          (start_session empty_state session_id repo_path ["a.py", "b.py", "c.py"] t0)
          session_id "a.py" (fs "a.py") R t1) session_id fs = ["b.py", "c.py"] ∧
      get_cached_result
        (mark_file_completed
          (start_session empty_state session_id repo_path ["a.py", "b.py", "c.py"] t0)
          session_id "a.py" (fs "a.py") R t1) "a.py" (fs "a.py") = some R) := by
  constructor
  · intro st session_id fs sess h
    unfold get_pending_files
    rw [h]
    refine ⟨List.filter_sublist _, ?_⟩
    intro f
    rw [List.mem_filter]
    simp
  · intro session_id repo_path fs R t0 t1
    have hstate :
        mark_file_completed
          (start_session empty_state session_id repo_path ["a.py", "b.py", "c.py"] t0)
          session_id "a.py" (fs "a.py") R t1
        = { sessions := [(session_id,
              { repo_path := repo_path, started_at := t0, total_files := 3,
                completed_count := 1, files := ["a.py", "b.py", "c.py"],
                status := "running", last_updated := t1 })],
            completed_files := [(calculate_file_hash "a.py" (fs "a.py"),
              FileRecord.completed "a.py" R t1 session_id)] } := by
      unfold mark_file_completed start_session empty_state bump_session
      simp [dict_set, dict_get]
    rw [hstate]
    have hab : calculate_file_hash "a.py" (fs "a.py") ≠ calculate_file_hash "b.py" (fs "b.py") :=
      calculate_file_hash_path_ne _ _ _ _ (by decide)
    have hac : calculate_file_hash "a.py" (fs "a.py") ≠ calculate_file_hash "c.py" (fs "c.py") :=
      calculate_file_hash_path_ne _ _ _ _ (by decide)
    constructor
    · simp [get_pending_files, dict_get, dict_has, hab, hac]
    · simp [get_cached_result, dict_get]

/-- Filesystem observation for the C9 witness: no file exists, so each
fingerprint is path-only. -/
def c9_fs : String → Option Rat := fun _ => none

/-- State for the C9 witness: session `s` over `[a.py, b.py, c.py]` with
`a.py` marked completed with result `5`. -/
def c9_state : ManagerState :=
  mark_file_completed
    (start_session empty_state "s" "r" ["a.py", "b.py", "c.py"] 0)
    "s" "a.py" (c9_fs "a.py") 5 1

/-- The session record held by `c9_state`. -/
def c9_sess : Session :=
  { repo_path := "r", started_at := 0, total_files := 3, completed_count := 1,
    files := ["a.py", "b.py", "c.py"], status := "running", last_updated := 1 }

/-- Witness for C9 at the concrete `[a.py, b.py, c.py]` session. -/
theorem get_pending_files_spec_witness :
    (dict_get c9_state.sessions "s" = some c9_sess) ∧
    (get_pending_files c9_state "s" c9_fs).Sublist c9_sess.files ∧
    get_pending_files c9_state "s" c9_fs = ["b.py", "c.py"] ∧
    get_cached_result c9_state "a.py" (c9_fs "a.py") = some 5 :=
  ⟨by rfl, (get_pending_files_spec.1 c9_state "s" c9_fs c9_sess (by rfl)).1,
   (get_pending_files_spec.2 "s" "r" c9_fs 5 0 1).1,
   (get_pending_files_spec.2 "s" "r" c9_fs 5 0 1).2⟩

/-! ## Analysis orchestrator (`__main__.py`, function `run`)

The per-category vulnerability loop `for i in range(7)` is embedded as a
fold of `loop_step` over the round indices.  The scripted model is a
function from round index to the validated `Response` of that round's
`llm.chat` call, and `SymbolExtractor.extract` is an oracle from the
requested name and code-line hint to an optional `CodeDefinition`.  The
loop state records the `stored_code_definitions` dict, the `same_context`
flag, whether `break` has run, the number of model calls made, and the
 names `extract` has been invoked on.  -/

/-- The `VulnType` enumeration. -/
inductive VulnType where
  | LFI | RCE | SSRF | AFO | SQLI | XSS | IDOR
deriving DecidableEq

/-- A `ContextCode` item of a model response. -/
structure ContextCode where
  name : String
  reason : String
  code_line : String
deriving DecidableEq

/-- The structured `Response` model. -/
structure Response where
  scratchpad : String
  analysis : String
  poc : String
  confidence_score : Nat
  vulnerability_types : List VulnType
  context_code : List ContextCode
deriving DecidableEq

/-- A `CodeDefinition` as produced by the symbol extractor. -/
structure CodeDefinition where
  name : String
  context_name_requested : String
  file_path : String
  source : String
deriving DecidableEq

/-- The `for context_item in secondary_analysis_report.context_code` block:
walk the requested items, invoking `extract` for names not yet in
`stored_code_definitions` and storing successful matches.  Returns the
updated dict and the names `extract` was invoked on, in order. -/
def resolve_context (extract : String → String → Option CodeDefinition)
    (stored : List (String × CodeDefinition)) :
    List ContextCode → List (String × CodeDefinition) × List String
  | [] => (stored, [])
  | item :: rest =>
    if dict_has stored item.name then
      resolve_context extract stored rest
    else
      match extract item.name item.code_line with
      | some m =>
        let r := resolve_context extract (dict_set stored item.name m) rest
        (r.1, item.name :: r.2)
      | none =>
        let r := resolve_context extract stored rest
        (r.1, item.name :: r.2)

/-- State carried across iterations of the `for i in range(7)` loop. -/
structure LoopState where
  stored : List (String × CodeDefinition)
  same_context : Bool
  broke : Bool
  calls : Nat
  invoked : List String
deriving DecidableEq

/-- State on entry to the category loop (`stored_code_definitions = {}`,
`same_context = False`). -/
def loop_init : LoopState :=
  { stored := [], same_context := false, broke := false, calls := 0, invoked := [] }

/-- One iteration of the category loop at round `i`: when the loop has
already broken the iteration does not run; otherwise resolve the previous
round's context requests (rounds `i > 0` only), issue the model call, and
apply the two break checks — zero context requested, or no growth with the
`same_context` flag already set (the flag is set by the first no-growth
round and never cleared). -/
def loop_step (extract : String → String → Option CodeDefinition)
    (script : Nat → Response) (s : LoopState) (i : Nat) : LoopState :=
  if s.broke then s
  else
    let previous_context_amount := if 0 < i then s.stored.length else 0
    let r := if 0 < i then resolve_context extract s.stored (script (i - 1)).context_code
             else (s.stored, [])
    let stored := r.1
    let invoked := s.invoked ++ r.2
    let calls := s.calls + 1
    if (script i).context_code.length = 0 then
      { stored := stored, same_context := s.same_context, broke := true,
        calls := calls, invoked := invoked }
    else if previous_context_amount ≥ stored.length ∧ 0 < i then
      if s.same_context then
        { stored := stored, same_context := s.same_context, broke := true,
          calls := calls, invoked := invoked }
      else
        { stored := stored, same_context := true, broke := false,
          calls := calls, invoked := invoked }
    else
      { stored := stored, same_context := s.same_context, broke := false,
        calls := calls, invoked := invoked }

/-- The category loop run for its first `n` rounds. -/
def vuln_loop_upto (extract : String → String → Option CodeDefinition)
    (script : Nat → Response) (n : Nat) : LoopState :=
  (List.range n).foldl (loop_step extract script) loop_init

/-- The full `for i in range(7)` category loop. -/
def vuln_loop (extract : String → String → Option CodeDefinition)
    (script : Nat → Response) : LoopState :=
  vuln_loop_upto extract script 7

/-- The `for vuln_type in initial_analysis_report.vulnerability_types`
loop: `stored_code_definitions` is reset for every category, so each
category loop starts from `loop_init`.  Returns all `extract` invocations
of the per-file secondary analysis, in order. -/
def secondary_analysis_invoked (extract : String → String → Option CodeDefinition)
    (script : VulnType → Nat → Response) (vuln_types : List VulnType) : List String :=
  (vuln_types.map (fun v => (vuln_loop extract (script v)).invoked)).flatten

lemma loop_step_calls_le (extract : String → String → Option CodeDefinition)
    (script : Nat → Response) (s : LoopState) (i : Nat) :
    (loop_step extract script s i).calls ≤ s.calls + 1 := by
  unfold loop_step
  split_ifs <;> try simp
  all_goals split_ifs <;> simp

lemma foldl_loop_step_calls_le (extract : String → String → Option CodeDefinition)
    (script : Nat → Response) :
    ∀ (l : List Nat) (s : LoopState),
      (l.foldl (loop_step extract script) s).calls ≤ s.calls + l.length := by
  intro l
  induction l with
  | nil => intro s; simp
  | cons i rest ih =>
    intro s
    simp only [List.foldl_cons, List.length_cons]
    have h1 := loop_step_calls_le extract script s i
    have h2 := ih (loop_step extract script s i)
    omega

/-- Claim C3: the per-category loop makes at most 7 model calls, whatever
the model responses and the resolver results. -/
theorem vuln_loop_at_most_seven_calls :
    ∀ (extract : String → String → Option CodeDefinition) (script : Nat → Response),
      (vuln_loop extract script).calls ≤ 7 := by
  intro extract script
  have h := foldl_loop_step_calls_le extract script (List.range 7) loop_init
  simpa [vuln_loop, vuln_loop_upto, loop_init] using h

/-- Response with the given context requests and fixed boilerplate in the
fields the loop control never reads. -/
def mk_resp (ctxs : List ContextCode) : Response :=
  { scratchpad := "", analysis := "", poc := "", confidence_score := 1,
    vulnerability_types := [.RCE], context_code := ctxs }

/-- Context request for name `n` with `n` as its code-line hint. -/
def mk_ctx (n : String) : ContextCode := { name := n, reason := "", code_line := n }

/-- Resolver match for name `n`. -/
def mk_match (n : String) : CodeDefinition :=
  { name := n, context_name_requested := n, file_path := "f.py", source := "src" }

/-- Resolver oracle that resolves the names `A` and `B` and nothing else. -/
def c1_extract : String → String → Option CodeDefinition := fun name _ =>
  if name = "A" then some (mk_match "A")
  else if name = "B" then some (mk_match "B")
  else none

/-- Scripted model: round 0 requests resolvable `A`, round 1 unresolvable
`U`, round 2 resolvable `B`, every later round `U` again. -/
def c1_script : Nat → Response := fun i =>
  match i with
  | 0 => mk_resp [mk_ctx "A"]
  | 1 => mk_resp [mk_ctx "U"]
  | 2 => mk_resp [mk_ctx "B"]
  | _ => mk_resp [mk_ctx "U"]

/-- Counterexample to claim C1: under `c1_script` the resolved set does not
grow in round 2 (first tolerated no-growth round), grows in round 3, and
the loop nevertheless takes the no-growth break in round 4 (context was
requested there, so it is not the zero-context stop).  The two no-growth
rounds are 2 and 4 — not consecutive, because the `same_context` flag is
never cleared by the growth round in between. -/
theorem same_context_break_not_consecutive :
    (vuln_loop_upto c1_extract c1_script 2).stored.length
      = (vuln_loop_upto c1_extract c1_script 3).stored.length ∧
    (vuln_loop_upto c1_extract c1_script 3).stored.length
      < (vuln_loop_upto c1_extract c1_script 4).stored.length ∧
    (c1_script 4).context_code.length ≠ 0 ∧
    (vuln_loop_upto c1_extract c1_script 4).broke = false ∧
    (vuln_loop_upto c1_extract c1_script 5).broke = true ∧
    (vuln_loop c1_extract c1_script).calls = 5 := by
  decide

/-- Scripted model requesting the same name in every round. -/
def u_script : Nat → Response := fun _ => mk_resp [mk_ctx "u"]

/-- Resolver oracle that never resolves anything. -/
def u_extract : String → String → Option CodeDefinition := fun _ _ => none

/-- Claim C1 as amended: the loop takes the no-growth break exactly on a
no-growth round entered with the sticky `same_context` flag already set;
the first no-growth round only sets the flag, a growth round never breaks
(and never clears the flag, so the two no-growth rounds need not be
consecutive); and the scripted model requesting the same unresolved name
on every round terminates the loop in round 2 after exactly 3 model calls,
with no further call. -/
theorem vuln_loop_no_growth_termination :
    (∀ (extract : String → String → Option CodeDefinition) (script : Nat → Response)
        (s : LoopState) (i : Nat),
      s.broke = false → s.same_context = false →
      (loop_step extract script s i).broke = true →
      (script i).context_code.length = 0) ∧
    (∀ (extract : String → String → Option CodeDefinition) (script : Nat → Response)
        (s : LoopState) (i : Nat),
      s.broke = false → s.same_context = true → 0 < i →
      (script i).context_code.length ≠ 0 →
      (resolve_context extract s.stored (script (i - 1)).context_code).1.length
        ≤ s.stored.length →
      (loop_step extract script s i).broke = true) ∧
    (∀ (extract : String → String → Option CodeDefinition) (script : Nat → Response)
        (s : LoopState) (i : Nat),
      s.broke = false →
      (script i).context_code.length ≠ 0 →
      s.stored.length
        < (resolve_context extract s.stored (script (i - 1)).context_code).1.length →
      (loop_step extract script s i).broke = false ∧
      (loop_step extract script s i).same_context = s.same_context) ∧
    (∀ (extract : String → String → Option CodeDefinition) (script : Nat → Response)
        (s : LoopState) (i : Nat),
      s.broke = false → s.same_context = false → 0 < i →
      (script i).context_code.length ≠ 0 →
      (resolve_context extract s.stored (script (i - 1)).context_code).1.length
        ≤ s.stored.length →
      (loop_step extract script s i).broke = false ∧
      (loop_step extract script s i).same_context = true) ∧
    ((vuln_loop_upto u_extract u_script 3).broke = true ∧
     (vuln_loop u_extract u_script).calls = 3) := by
  refine ⟨?_, ?_, ?_, ?_, by decide⟩
  · intro extract script s i hb hsc hbr
    simp only [loop_step] at hbr
    split_ifs at hbr <;> simp_all
  · intro extract script s i hb hsc hi hlen hle
    simp only [loop_step]
    split_ifs <;> simp_all
  · intro extract script s i hb hlen hgrow
    simp only [loop_step]
    split_ifs <;> simp_all <;> omega
  · intro extract script s i hb hsc hi hlen hle
    simp only [loop_step]
    split_ifs <;> simp_all

/-- Loop state entering a round with the `same_context` flag already set
and `A` already resolved. -/
def w1_state : LoopState :=
  { stored := [("A", mk_match "A")], same_context := true, broke := false,
    calls := 3, invoked := ["A"] }

/-- Witness for the amended C1: with the flag set, an unresolvable repeat
request in round 2 breaks the loop. -/
theorem vuln_loop_no_growth_termination_witness :
    (w1_state.broke = false ∧ w1_state.same_context = true ∧ 0 < 2 ∧
      (u_script 2).context_code.length ≠ 0 ∧
      (resolve_context u_extract w1_state.stored (u_script 1).context_code).1.length
        ≤ w1_state.stored.length) ∧
    (loop_step u_extract u_script w1_state 2).broke = true :=
  ⟨⟨rfl, rfl, by norm_num, by decide, by decide⟩,
   vuln_loop_no_growth_termination.2.1 u_extract u_script w1_state 2
     rfl rfl (by norm_num) (by decide) (by decide)⟩

lemma dict_get_set {α β : Type} [DecidableEq α] (m : List (α × β)) (k n : α) (v : β) :
    dict_get (dict_set m k v) n = if k = n then some v else dict_get m n := by
  induction m with
  | nil => simp [dict_set, dict_get]
  | cons kv rest ih =>
    simp only [dict_set, dict_get]
    split_ifs <;> simp_all [dict_get]

lemma dict_has_set_of_has {α β : Type} [DecidableEq α] (m : List (α × β)) (k n : α) (v : β)
    (h : dict_has m n = true) : dict_has (dict_set m k v) n = true := by
  by_cases hk : k = n <;> simp_all [dict_has, dict_get_set]

lemma resolve_context_has (extract : String → String → Option CodeDefinition)
    (items : List ContextCode) :
    ∀ (stored : List (String × CodeDefinition)) (n : String),
      dict_has stored n = true →
      dict_has (resolve_context extract stored items).1 n = true := by
  induction items with
  | nil =>
    intro stored n h
    simpa [resolve_context] using h
  | cons item rest ih =>
    intro stored n h
    unfold resolve_context
    by_cases hmem : dict_has stored item.name
    · rw [if_pos hmem]
      exact ih stored n h
    · rw [if_neg hmem]
      cases hx : extract item.name item.code_line with
      | some m => exact ih (dict_set stored item.name m) n (dict_has_set_of_has _ _ _ _ h)
      | none => exact ih stored n h

lemma resolve_context_not_invoked (extract : String → String → Option CodeDefinition)
    (items : List ContextCode) :
    ∀ (stored : List (String × CodeDefinition)) (n : String),
      dict_has stored n = true →
      n ∉ (resolve_context extract stored items).2 := by
  induction items with
  | nil =>
    intro stored n _
    simp [resolve_context]
  | cons item rest ih =>
    intro stored n h
    unfold resolve_context
    by_cases hmem : dict_has stored item.name
    · rw [if_pos hmem]
      exact ih stored n h
    · rw [if_neg hmem]
      have hne : ¬ n = item.name := by
        intro he
        rw [he] at h
        exact hmem h
      cases hx : extract item.name item.code_line with
      | some m =>
        simp only [List.mem_cons, not_or]
        exact ⟨hne, ih (dict_set stored item.name m) n (dict_has_set_of_has _ _ _ _ h)⟩
      | none =>
        simp only [List.mem_cons, not_or]
        exact ⟨hne, ih stored n h⟩

lemma loop_step_stored_has (extract : String → String → Option CodeDefinition)
    (script : Nat → Response) (s : LoopState) (i : Nat) (n : String)
    (h : dict_has s.stored n = true) :
    dict_has (loop_step extract script s i).stored n = true := by
  simp only [loop_step]
  split_ifs <;>
    first
      | exact h
      | exact resolve_context_has extract ((script (i - 1)).context_code) s.stored n h

lemma loop_step_invoked_count (extract : String → String → Option CodeDefinition)
    (script : Nat → Response) (s : LoopState) (i : Nat) (n : String)
    (h : dict_has s.stored n = true) :
    ((loop_step extract script s i).invoked).count n = s.invoked.count n := by
  have h0 : ((resolve_context extract s.stored (script (i - 1)).context_code).2).count n = 0 :=
    List.count_eq_zero.mpr (resolve_context_not_invoked extract _ s.stored n h)
  simp only [loop_step]
  split_ifs <;> simp_all [List.count_append]

lemma foldl_loop_step_invoked (extract : String → String → Option CodeDefinition)
    (script : Nat → Response) :
    ∀ (l : List Nat) (s : LoopState) (n : String),
      dict_has s.stored n = true →
      ((l.foldl (loop_step extract script) s).invoked.count n = s.invoked.count n ∧
        dict_has ((l.foldl (loop_step extract script) s)).stored n = true) := by
  intro l
  induction l with
  | nil => intro s n h; exact ⟨rfl, h⟩
  | cons i rest ih =>
    intro s n h
    simp only [List.foldl_cons]
    have h1 := loop_step_stored_has extract script s i n h
    obtain ⟨hc, hh⟩ := ih (loop_step extract script s i) n h1
    refine ⟨?_, hh⟩
    rw [hc, loop_step_invoked_count extract script s i n h]

/-- Claim C4 as amended: within one category loop, once a requested name
has been stored in `stored_code_definitions` (after some prefix of rounds),
the extract oracle is never invoked on that name again in the remaining
rounds of that loop — the invocation log for the name never grows.  (The
dict is reset per category, so this does not extend across categories;
see the counterexample.) -/
theorem resolved_name_not_reextracted_within_category :
    ∀ (extract : String → String → Option CodeDefinition) (script : Nat → Response)
      (i : Nat) (n : String), i ≤ 7 →
      dict_has (vuln_loop_upto extract script i).stored n = true →
      (vuln_loop extract script).invoked.count n
        = (vuln_loop_upto extract script i).invoked.count n := by
  intro extract script i n hi h
  have hsplit : vuln_loop extract script
      = ((List.range (7 - i)).map (i + ·)).foldl (loop_step extract script)
          (vuln_loop_upto extract script i) := by
    unfold vuln_loop vuln_loop_upto
    have h7 : 7 = i + (7 - i) := by omega
    rw [h7, List.range_add, List.foldl_append]
    have hsub : i + (7 - i) - i = 7 - i := by omega
    rw [hsub]
  rw [hsplit]
  exact (foldl_loop_step_invoked extract script _ _ n h).1

/-- Scripted model requesting resolvable `A` in round 0 and nothing later. -/
def c4_script : Nat → Response := fun i =>
  match i with
  | 0 => mk_resp [mk_ctx "A"]
  | _ => mk_resp []

/-- Witness for the amended C4: `A` is resolved by round 1, and the full
category loop performs no further extraction of `A`. -/
theorem resolved_name_not_reextracted_within_category_witness :
    ((2 : Nat) ≤ 7 ∧ dict_has (vuln_loop_upto c1_extract c4_script 2).stored "A" = true) ∧
    (vuln_loop c1_extract c4_script).invoked.count "A"
      = (vuln_loop_upto c1_extract c4_script 2).invoked.count "A" :=
  ⟨⟨by norm_num, by decide⟩,
   resolved_name_not_reextracted_within_category c1_extract c4_script 2 "A"
     (by norm_num) (by decide)⟩

/-- Counterexample to claim C4 as stated: with two vulnerability categories
reported for the file, the name `A` is resolved in the first category's
loop, yet — because `stored_code_definitions` is reset for every category —
the extract oracle is invoked on `A` again in the second category's loop:
twice in the session in total. -/
theorem resolved_name_reextracted_across_categories :
    c1_extract "A" "A" = some (mk_match "A") ∧
    dict_has (vuln_loop c1_extract c4_script).stored "A" = true ∧
    (secondary_analysis_invoked c1_extract (fun _ => c4_script)
      [VulnType.LFI, VulnType.RCE]).count "A" = 2 := by
  decide

/-! ## Resilient dispatcher (`enhanced_llm.py`, `EnhancedLLM.chat_with_rate_limiting`)

The wrapped `self.chat` call is scripted: the k-th chat invocation of one
dispatcher call yields `script k`.  Exceptions raised by `chat` follow the
taxonomy of `LLMs.py`: `RateLimitError`, `APIConnectionError` and
`APIStatusError` have dedicated handlers; a response failing pydantic
validation raises the plain `LLMError("Validation failed")`, which — like
every other exception — lands in the generic `except Exception` handler.
`time.sleep` advances the explicit clock, so a present rate limiter
refills during backoff. -/

/-- Outcome of one wrapped `chat` call. -/
inductive ChatOutcome where
  | ok (v : Nat)
  | rate_limit_error
  | api_connection_error
  | api_status_error (status_code : Nat)
  | validation_error
  | other_error
deriving DecidableEq

/-- Retry-relevant configuration of `EnhancedLLM` (`max_retries`,
`base_delay`, `max_delay`). -/
structure EnhancedLLMConfig where
  max_retries : Nat
  base_delay : Rat
  max_delay : Rat
deriving DecidableEq

/-- Final outcome of `chat_with_rate_limiting`: a returned value, a
propagated exception, or the implicit Python `None` returned when the
retry loop exhausts without returning or re-raising. -/
inductive DispatchOutcome where
  | success (v : Nat)
  | raised (e : ChatOutcome)
  | no_result
deriving DecidableEq

/-- Observable result of a dispatcher call: final outcome, number of
wrapped `chat` calls made, and total time slept. -/
structure DispatchTrace where
  outcome : DispatchOutcome
  chat_calls : Nat
  slept : Rat
deriving DecidableEq

/-- The except-branches of `chat_with_rate_limiting`: `some delay` means
sleep `delay` and run the next attempt, `none` means re-raise.  Rate
limits back off exponentially (`base_delay * 2 ** (attempt + 1)` capped at
`max_delay`) while further attempts remain; connection and status errors
back off gently (`base_delay * 1.5 ** (attempt + 1)` capped); any other
exception — including a validation failure — is retried exactly once with
a flat `base_delay`, and only when it hits the first attempt. -/
def retry_decision (cfg : EnhancedLLMConfig) (attempt : Nat) (e : ChatOutcome) : Option Rat :=
  match e with
  | .rate_limit_error =>
    if attempt < cfg.max_retries - 1 then
      some (min (cfg.base_delay * 2 ^ (attempt + 1)) cfg.max_delay)
    else none
  | .api_connection_error =>
    if attempt < cfg.max_retries - 1 then
      some (min (cfg.base_delay * (3 / 2) ^ (attempt + 1)) cfg.max_delay)
    else none
  | .api_status_error _ =>
    if attempt < cfg.max_retries - 1 then
      some (min (cfg.base_delay * (3 / 2) ^ (attempt + 1)) cfg.max_delay)
    else none
  | _ => if attempt = 0 then some cfg.base_delay else none

/-- Result of the pre-call admission block: the exception it raised inside
the `try` (if any), plus the updated limiter, clock, and time slept. -/
structure AdmissionResult where
  raised : Option ChatOutcome
  limiter : Option SimpleRateLimiter
  now : Rat
  slept : Rat

/-- The admission block at the top of the `try`: when a limiter is present
and denies the request, compute `wait_time`, sleep it when positive, and
re-check once; a second denial raises `RateLimitError`.  A `wait_time`
`ZeroDivisionError` is a generic exception.  When `wait_time` is not
positive the code falls through to `chat` without re-checking. -/
def admission : Option SimpleRateLimiter → Rat → AdmissionResult
  | none, now => ⟨none, none, now, 0⟩
  | some rl, now =>
    let r1 := rl.can_proceed now
    if r1.1 then ⟨none, some r1.2, now, 0⟩
    else
      match r1.2.wait_time with
      | none => ⟨some .other_error, some r1.2, now, 0⟩
      | some wt =>
        if 0 < wt then
          let r2 := r1.2.can_proceed (now + wt)
          if r2.1 then ⟨none, some r2.2, now + wt, wt⟩
          else ⟨some .rate_limit_error, some r2.2, now + wt, wt⟩
        else ⟨none, some r1.2, now, 0⟩

/-- The `for attempt in range(self.max_retries)` loop, structurally
recursive on the remaining iteration count (`rem = max_retries - attempt`
at every reachable call). -/
def chat_attempts (cfg : EnhancedLLMConfig) (script : Nat → ChatOutcome) :
    Nat → Nat → Option SimpleRateLimiter → Rat → Nat → Rat → DispatchTrace
  | _, 0, _, _, calls, slept => ⟨.no_result, calls, slept⟩
  | attempt, rem + 1, limiter, now, calls, slept =>
    let ad := admission limiter now
    match ad.raised with
    | some e =>
      match retry_decision cfg attempt e with
      | some d =>
        chat_attempts cfg script (attempt + 1) rem ad.limiter (ad.now + d)
          calls (slept + ad.slept + d)
      | none => ⟨.raised e, calls, slept + ad.slept⟩
    | none =>
      match script calls with
      | .ok v => ⟨.success v, calls + 1, slept + ad.slept⟩
      | e =>
        match retry_decision cfg attempt e with
        | some d =>
          chat_attempts cfg script (attempt + 1) rem ad.limiter (ad.now + d)
            (calls + 1) (slept + ad.slept + d)
        | none => ⟨.raised e, calls + 1, slept + ad.slept⟩

/-- `EnhancedLLM.chat_with_rate_limiting`, started at clock `now`. -/
def chat_with_rate_limiting (cfg : EnhancedLLMConfig)
    (limiter : Option SimpleRateLimiter) (script : Nat → ChatOutcome)
    (now : Rat) : DispatchTrace :=
  chat_attempts cfg script 0 cfg.max_retries limiter now 0 0

/-- Claim C6: with `max_retries = 3` (and delays in the uncapped regime
`4 * base_delay ≤ max_delay`), rate-limit failures on the first two chat
calls followed by a success yield that success after exactly 3 calls,
having slept `base_delay * 2 + base_delay * 4`; and rate-limit failures on
all three attempts make exactly 3 calls and then propagate the rate-limit
failure. -/
theorem dispatcher_rate_limit_retry_spec :
    (∀ (base maxd : Rat) (script : Nat → ChatOutcome) (v : Nat) (now : Rat),
      0 ≤ base → 4 * base ≤ maxd →
      script 0 = .rate_limit_error → script 1 = .rate_limit_error → script 2 = .ok v →
      chat_with_rate_limiting ⟨3, base, maxd⟩ none script now
        = ⟨.success v, 3, base * 2 + base * 4⟩) ∧
    (∀ (base maxd : Rat) (script : Nat → ChatOutcome) (now : Rat),
      script 0 = .rate_limit_error → script 1 = .rate_limit_error →
      script 2 = .rate_limit_error →
      (chat_with_rate_limiting ⟨3, base, maxd⟩ none script now).outcome
          = .raised .rate_limit_error ∧
      (chat_with_rate_limiting ⟨3, base, maxd⟩ none script now).chat_calls = 3) := by
  constructor
  · intro base maxd script v now h0 h4 hs0 hs1 hs2
    have e2 : base * 2 ^ (0 + 1) = base * 2 := by ring
    have e4 : base * 2 ^ (1 + 1) = base * 4 := by ring
    have hb2 : min (base * 2 ^ (0 + 1)) maxd = base * 2 := by
      rw [e2, min_eq_left (by linarith)]
    have hb4 : min (base * 2 ^ (1 + 1)) maxd = base * 4 := by
      rw [e4, min_eq_left (by linarith)]
    simp only [chat_with_rate_limiting, chat_attempts, admission, retry_decision,
      hs0, hs1, hs2, hb2, hb4]
    norm_num
  · intro base maxd script now hs0 hs1 hs2
    simp only [chat_with_rate_limiting, chat_attempts, admission, retry_decision,
      hs0, hs1, hs2]
    norm_num

/-- Scripted chat outcomes: rate-limited twice, then a success. -/
def c6_script : Nat → ChatOutcome := fun n =>
  match n with
  | 0 => .rate_limit_error
  | 1 => .rate_limit_error
  | _ => .ok 7

/-- Witness for C6 with the default configuration (`base_delay = 1`,
`max_delay = 60`). -/
theorem dispatcher_rate_limit_retry_spec_witness :
    ((0 : Rat) ≤ 1 ∧ 4 * (1 : Rat) ≤ 60) ∧
    chat_with_rate_limiting ⟨3, 1, 60⟩ none c6_script 0
      = ⟨.success 7, 3, 1 * 2 + 1 * 4⟩ :=
  ⟨⟨by norm_num, by norm_num⟩,
   dispatcher_rate_limit_retry_spec.1 1 60 c6_script 7 0 (by norm_num) (by norm_num)
     rfl rfl rfl⟩

/-- Scripted chat outcomes: a validation failure, then a success. -/
def c7_script : Nat → ChatOutcome := fun n =>
  match n with
  | 0 => .validation_error
  | _ => .ok 5

/-- Counterexample to claim C7: a validation failure on the first chat
call is retried by the dispatcher — a second chat call is made after a
`base_delay` sleep and its success is returned, instead of the failure
propagating immediately with no additional call and no sleep. -/
theorem validation_error_retried_once :
    chat_with_rate_limiting ⟨3, 1, 60⟩ none c7_script 0
      = ⟨.success 5, 2, 1⟩ := by
  simp only [chat_with_rate_limiting, chat_attempts, admission, retry_decision, c7_script]
  norm_num

/-- Claim C7 as amended: a validation failure is not special-cased by the
dispatcher — it falls into the generic unexpected-error handler, which
retries exactly once with a flat `base_delay` sleep when the failure hits
the first attempt, and propagates immediately (no further chat call, no
sleep) when it hits any later attempt. -/
theorem validation_error_generic_handler :
    (∀ (cfg : EnhancedLLMConfig) (script : Nat → ChatOutcome) (v : Nat) (now : Rat),
      2 ≤ cfg.max_retries →
      script 0 = .validation_error → script 1 = .ok v →
      chat_with_rate_limiting cfg none script now
        = ⟨.success v, 2, cfg.base_delay⟩) ∧
    (∀ (base maxd : Rat) (script : Nat → ChatOutcome) (now : Rat),
      script 0 = .rate_limit_error → script 1 = .validation_error →
      (chat_with_rate_limiting ⟨3, base, maxd⟩ none script now).outcome
          = .raised .validation_error ∧
      (chat_with_rate_limiting ⟨3, base, maxd⟩ none script now).chat_calls = 2) := by
  constructor
  · intro cfg script v now h2 hs0 hs1
    obtain ⟨k, hk⟩ := Nat.exists_eq_add_of_le h2
    unfold chat_with_rate_limiting
    rw [hk, Nat.add_comm]
    simp only [chat_attempts, admission, retry_decision, hs0, hs1]
    norm_num
  · intro base maxd script now hs0 hs1
    simp only [chat_with_rate_limiting, chat_attempts, admission, retry_decision,
      hs0, hs1]
    norm_num

/-- Scripted chat outcomes: a validation failure, then a success `9`. -/
def c7w_script : Nat → ChatOutcome := fun n =>
  match n with
  | 0 => .validation_error
  | _ => .ok 9

/-- Witness for the amended C7 with the default configuration. -/
theorem validation_error_generic_handler_witness :
    ((2 : Nat) ≤ 3) ∧
    chat_with_rate_limiting ⟨3, 1, 60⟩ none c7w_script 0 = ⟨.success 9, 2, 1⟩ :=
  ⟨by norm_num,
   validation_error_generic_handler.1 ⟨3, 1, 60⟩ c7w_script 9 0 (by norm_num) rfl rfl⟩

end Vulnhuntr
